import Mathlib

/-!
Verification of the Agora gateway's schema-composition and request-fusion
engine: a shallow embedding of the selection-set extractor, the query fusion
builder, the `wrappedDelegates` fan-out resolver, the delegate statement
store and its mutation, and the `WrappedDelegate.delegate` field resolver,
with theorems about the invariants these components are meant to satisfy.
-/

namespace Agora

/-- A GraphQL selection node: the closed set of node kinds a selection set may
hold (a field with its own sub-selections, a named fragment spread, or an
inline fragment).  Mirrors the upstream AST's `SelectionNode` union; the
gateway code inspects only a node's kind and, for fields, its name, carrying
nodes otherwise verbatim. -/
inductive Selection where
  | field (name : String) (selections : List Selection)
  | fragmentSpread (name : String)
  | inlineFragment (selections : List Selection)

/-- A top-level field node of the incoming operation, as it appears in
`info.fieldNodes`: a field name together with its selection set. -/
structure FieldNode where
  name : String
  selections : List Selection

/-- The own selection set of a selection node (empty for a fragment spread,
whose selections live in the fragment definition). -/
def Selection.subSelections : Selection → List Selection
  | .field _ selections => selections
  | .fragmentSpread _ => []
  | .inlineFragment selections => selections

/-- The test the `wrappedDelegates` resolver applies inside its `flatMap`:
`field.kind === "Field" && field.name.value === "delegate"`. -/
def Selection.isDelegateField : Selection → Bool
  | .field name _ => name == "delegate"
  | _ => false

/-- The filter `getSelectionSetFromDelegateField` applies to the delegate
field's selections: `node.kind === "Field" && node.name.value !== "id"`. -/
def Selection.isNonIdField : Selection → Bool
  | .field name _ => name != "id"
  | _ => false

/-- Embedding of `getSelectionSetFromDelegateField` from the
`wrappedDelegates` resolver: find the field node of `info.fieldNodes` whose
name matches `info.fieldName` (empty result when absent), take the first
field named `delegate` among its selections via a singleton-or-empty
`flatMap` (empty result when absent), and return that delegate field's own
selections filtered down to the field nodes not named `id`. -/
def getSelectionSetFromDelegateField (fieldNodes : List FieldNode)
    (fieldName : String) : List Selection :=
  match fieldNodes.find? (fun node => node.name == fieldName) with
  | none => []
  | some currentFieldNode =>
    match (currentFieldNode.selections.flatMap (fun field =>
        if field.isDelegateField then [field] else [])).head? with
    | none => []
    | some delegateFieldNode =>
      delegateFieldNode.subSelections.filter (fun node => node.isNonIdField)

/-- The fused remote query document that `buildFusedDelegateQuery` assembles:
the `delegates(first: 1000, orderBy: delegatedVotesRaw, orderDirection:
desc)` root field spreading the `DelegateFields` fragment, whose selections
are the fragment's base selection set after the visit step splices the extra
selections in. -/
structure FusedQuery where
  first : Nat
  orderBy : String
  orderDirection : String
  fragmentSelections : List Selection

/-- Embedding of `buildFusedDelegateQuery`: parse the fixed query text
(`delegates(first: 1000, orderBy: delegatedVotesRaw, orderDirection: desc)`
spreading a `DelegateFields` fragment whose base selection is `id`), then
visit the `DelegateFields` fragment definition and append the caller's
delegate-field selection set after the base selections. -/
def buildFusedDelegateQuery (delegateFieldSelectionSet : List Selection) :
    FusedQuery :=
  { first := 1000
    orderBy := "delegatedVotesRaw"
    orderDirection := "desc"
    fragmentSelections :=
      [Selection.field "id" []] ++ delegateFieldSelectionSet }

/-- One row of the fused query's `delegates` result: the delegate's `id`
(always projected by the base fragment) plus whatever extra projected field
values the remote schema returned for it. -/
structure DelegateRow where
  id : String
  projected : List (String × String)
deriving DecidableEq, Repr

/-- The shape `graphql({ schema, source })` resolves to: result rows under
`data.delegates` and a list of error messages; per graphql-js the `errors`
member is absent (here: empty) exactly when execution produced no error. -/
structure ExecutionResult where
  data : List DelegateRow
  errors : List String
deriving DecidableEq, Repr

/-- The `AggregateError` the resolver throws: the underlying error list and a
message concatenating the individual messages. -/
structure AggregateError where
  errors : List String
  message : String
deriving DecidableEq, Repr

/-- A `WrappedDelegate` model value: an address, with the underlying on-chain
delegate row present when the entry came from the fused query result and
absent for a statement-only entry. -/
structure WrappedDelegate where
  address : String
  underlyingDelegate : Option DelegateRow
deriving DecidableEq, Repr

/-- Free-form governance-statement fields of a validated delegate statement
(§3 of the design: text statement, tri-state sponsorship flag encoded as
"yes"/"no"/absent, most/least valuable proposal ids, social handles, issue
positions, and the producing-client tag). -/
structure StatementValues where
  delegateStatement : String
  openToSponsoringProposals : Option String
  twitter : String
  discord : String
  mostValuableProposals : List String
  leastValuableProposals : List String
  topIssues : List (String × String)
  forClient : String
deriving DecidableEq, Repr

/-- A detached signature over the exact submitted JSON text, modelled by the
address that correct signer recovery yields for it. -/
structure Signature where
  recoveredSigner : String
deriving DecidableEq, Repr

/-- A validated statement record as held by the Statement Store:
`{ address, values, rawSignature }`. -/
structure StatementRecord where
  address : String
  values : StatementValues
  rawSignature : Signature
deriving DecidableEq, Repr

/-- The `delegateStatements` store: a JS `Map` from address to validated
record, modelled as an insertion-ordered association list with at most one
entry per key. -/
abbrev DelegateStatementStore := List (String × StatementRecord)

/-- `Map.prototype.set`: overwrite in place when the key is present (keeping
its insertion position), append otherwise. -/
def storeSet : DelegateStatementStore → String → StatementRecord →
    DelegateStatementStore
  | [], key, record => [(key, record)]
  | (k, r) :: rest, key, record =>
    if k == key then (key, record) :: rest
    else (k, r) :: storeSet rest key record

/-- `Map.prototype.get`: the record stored under the key, when present. -/
def storeGet (store : DelegateStatementStore) (key : String) :
    Option StatementRecord :=
  (store.find? (fun entry => entry.1 == key)).map (fun entry => entry.2)

/-- `Map.prototype.keys()`: the keys in insertion order. -/
def storeKeys (store : DelegateStatementStore) : List String :=
  store.map (fun entry => entry.1)

/-- Embedding of the `wrappedDelegates` resolver: extract the delegate
field's selection set from the incoming request, build the fused query from
it, snapshot the statement store's addresses, execute the fused query once
against the remote schema (`execQuery` stands for `graphql({ schema:
nounsSchema, source: print(fusedDelegateQuery) })`), throw an
`AggregateError` when the execution result carries errors, and otherwise
return the wrapped remote rows followed by the statement-only addresses not
present in the remote result set. -/
def wrappedDelegates (fieldNodes : List FieldNode) (fieldName : String)
    (execQuery : FusedQuery → ExecutionResult)
    (delegateStatements : DelegateStatementStore) :
    Except AggregateError (List WrappedDelegate) :=
  let delegateFieldSelectionSet :=
    getSelectionSetFromDelegateField fieldNodes fieldName
  let fusedDelegateQuery := buildFusedDelegateQuery delegateFieldSelectionSet
  let fromDelegateStatements := (storeKeys delegateStatements).map
    (fun address => WrappedDelegate.mk address none)
  let executionResult := execQuery fusedDelegateQuery
  if executionResult.errors.isEmpty then
    let remoteDelegates := executionResult.data.map
      (fun delegate => WrappedDelegate.mk delegate.id (some delegate))
    let remoteDelegatesSet := remoteDelegates.map (fun it => it.address)
    Except.ok (remoteDelegates ++ fromDelegateStatements.filter
      (fun it => !(remoteDelegatesSet.contains it.address)))
  else
    Except.error (AggregateError.mk executionResult.errors
      (String.intercalate ", \n" executionResult.errors))

/-- Canonical lowercase form of an address (§3: all identity comparisons and
map keys use the canonical lowercase form); `toLowerCase` applied
character-wise. -/
def normalizeAddress (address : String) : String :=
  String.mk (address.data.map Char.toLower)

/-- A `ValidationError` carrying a human-readable reason (§7). -/
structure ValidationError where
  reason : String
deriving DecidableEq, Repr

/-- A parse-stage view of the submitted statement payload: the address it
claims plus the statement content.  A malformed submission is `none`. -/
structure SubmittedPayload where
  address : String
  values : StatementValues
deriving DecidableEq, Repr

/-- Modelled from the spec: `validateForm` (the Signature Validator, §4.1) is
imported from `./formSchema`, which is not part of this repository slice.
Per the spec it recovers the signer address from the signature, requires it
to equal the address embedded in the payload, fails with a `ValidationError`
on mismatch or malformed payload, and on success yields a candidate record
keyed by the normalized address. -/
def validateForm (payloadJSON : Option SubmittedPayload)
    (signature : Signature) : Except ValidationError StatementRecord :=
  match payloadJSON with
  | none => Except.error (ValidationError.mk "malformed statement payload")
  | some payload =>
    if normalizeAddress signature.recoveredSigner ==
        normalizeAddress payload.address then
      Except.ok (StatementRecord.mk (normalizeAddress payload.address)
        payload.values signature)
    else
      Except.error (ValidationError.mk
        "recovered signer does not match the address claimed by the payload")

/-- The mutation's return value: an object holding only the address. -/
structure CreateNewDelegateStatementResult where
  address : String
deriving DecidableEq, Repr

/-- Embedding of the `createNewDelegateStatement` mutation resolver: validate
the submitted body and signature, and on success commit the validated record
to the statement store under the validated record's address and return an
object holding only that address; a validation failure propagates before the
store is touched, so the error case carries no updated store. -/
def createNewDelegateStatement (payloadJSON : Option SubmittedPayload)
    (signature : Signature) (store : DelegateStatementStore) :
    Except ValidationError
      (DelegateStatementStore × CreateNewDelegateStatementResult) :=
  match validateForm payloadJSON signature with
  | Except.error e => Except.error e
  | Except.ok validated =>
    Except.ok (storeSet store validated.address validated,
      CreateNewDelegateStatementResult.mk validated.address)

/-- How the `WrappedDelegate.delegate` field resolver resolves: either
directly from data already in hand, or by `delegateToSchema` forwarding a
single query-field resolution with an explicit argument. -/
inductive DelegateFieldResolution where
  | direct (underlyingDelegate : DelegateRow)
  | delegatedToSchema (operation : String) (fieldName : String)
      (idArg : String)
deriving DecidableEq, Repr

/-- Embedding of the `WrappedDelegate.delegate` resolver: return the
underlying delegate directly when present, and otherwise delegate a
`delegate(id: address)` query-field resolution to the remote schema. -/
def WrappedDelegate.delegate (w : WrappedDelegate) : DelegateFieldResolution :=
  match w.underlyingDelegate with
  | some underlyingDelegate => DelegateFieldResolution.direct underlyingDelegate
  | none => DelegateFieldResolution.delegatedToSchema "query" "delegate"
      w.address

/-- The Selection-Set Extractor as §4.3 of the spec words it: find the field
matching the root operation field name, find the field named
`nestedFieldName` within its selection set, and return that nested field's
own selections minus any selection for the identity field `id`; empty when
either field is absent. -/
def extractNestedSelectionSpec (document : List FieldNode)
    (rootOperationFieldName : String) (nestedFieldName : String) :
    List Selection :=
  match document.find? (fun node => node.name == rootOperationFieldName) with
  | none => []
  | some rootField =>
    match rootField.selections.find? (fun s => match s with
        | Selection.field name _ => name == nestedFieldName
        | _ => false) with
    | none => []
    | some nestedField =>
      nestedField.subSelections.filter (fun s => match s with
        | Selection.field name _ => name != "id"
        | _ => true)

/-- The amended Selection-Set Extractor contract: as `extractNestedSelectionSpec`
but keeping only field selections — non-field selections (fragment spreads
and inline fragments) are dropped along with the identity field. -/
def extractNestedSelectionAmended (document : List FieldNode)
    (rootOperationFieldName : String) (nestedFieldName : String) :
    List Selection :=
  match document.find? (fun node => node.name == rootOperationFieldName) with
  | none => []
  | some rootField =>
    match rootField.selections.find? (fun s => match s with
        | Selection.field name _ => name == nestedFieldName
        | _ => false) with
    | none => []
    | some nestedField =>
      nestedField.subSelections.filter (fun s => match s with
        | Selection.field name _ => name != "id"
        | _ => false)

/-- A concrete incoming request used to compare the extractor against the
spec's wording: `wrappedDelegates { delegate { ...voteInfo votes } }`, whose
delegate field carries a fragment spread among its sub-selections. -/
def spreadRequestFieldNodes : List FieldNode :=
  [FieldNode.mk "wrappedDelegates"
    [Selection.field "delegate"
      [Selection.fragmentSpread "voteInfo", Selection.field "votes" []]]]

lemma flatMap_singleton_eq_filter {α : Type} (p : α → Bool) (l : List α) :
    (l.flatMap (fun x => if p x then [x] else [])) = l.filter p := by
  induction l with
  | nil => rfl
  | cons a t ih =>
    by_cases h : p a <;>
      simp [List.flatMap_cons, h, ih, List.filter_cons]

lemma getSelectionSetFromDelegateField_eq (fieldNodes : List FieldNode)
    (fieldName : String) (currentFieldNode : FieldNode)
    (delegateFieldNode : Selection)
    (hcur : fieldNodes.find? (fun node => node.name == fieldName) =
      some currentFieldNode)
    (hdel : ((currentFieldNode.selections.flatMap (fun field =>
      if field.isDelegateField then [field] else [])).head?) =
      some delegateFieldNode) :
    getSelectionSetFromDelegateField fieldNodes fieldName =
      delegateFieldNode.subSelections.filter
        (fun node => node.isNonIdField) := by
  unfold getSelectionSetFromDelegateField
  rw [hcur]
  simp only [hdel]

/-- Claim C1: for a `wrappedDelegates` request whose delegate field carries the
sub-selection set `S`, the `DelegateFields` fragment of the fused query
always contains the identity field `id`, and every field selection of `S`
appears in it under its own, unchanged name — verbatim when it is not named
`id`, and through the always-present base `id` field otherwise. -/
theorem fused_query_selection_superset (fieldNodes : List FieldNode)
    (fieldName : String) (currentFieldNode : FieldNode) (S : List Selection)
    (hcur : fieldNodes.find? (fun node => node.name == fieldName) =
      some currentFieldNode)
    (hdel : ((currentFieldNode.selections.flatMap (fun field =>
      if field.isDelegateField then [field] else [])).head?) =
      some (Selection.field "delegate" S)) :
    Selection.field "id" [] ∈
      (buildFusedDelegateQuery
        (getSelectionSetFromDelegateField fieldNodes fieldName)).fragmentSelections ∧
    ∀ s ∈ S, ∀ n sub, s = Selection.field n sub →
      (∃ sub2, Selection.field n sub2 ∈
        (buildFusedDelegateQuery
          (getSelectionSetFromDelegateField fieldNodes fieldName)).fragmentSelections) ∧
      (n ≠ "id" → s ∈
        (buildFusedDelegateQuery
          (getSelectionSetFromDelegateField fieldNodes fieldName)).fragmentSelections) := by
  rw [getSelectionSetFromDelegateField_eq fieldNodes fieldName
    currentFieldNode _ hcur hdel]
  unfold buildFusedDelegateQuery
  simp only [Selection.subSelections]
  constructor
  · simp
  · intro s hs n sub hfield
    by_cases hid : n = "id"
    · subst hid
      exact ⟨⟨[], by simp⟩, fun hne => absurd rfl hne⟩
    · have hkeep : s.isNonIdField = true := by
        rw [hfield]
        simp [Selection.isNonIdField, hid]
      have hmem : s ∈ [Selection.field "id" []] ++
          S.filter (fun node => node.isNonIdField) :=
        List.mem_append_right _ (List.mem_filter.mpr ⟨hs, hkeep⟩)
      exact ⟨⟨sub, hfield ▸ hmem⟩, fun _ => hmem⟩

/-- Witness for claim C1: the concrete request `wrappedDelegates { delegate { votes } }`
satisfies the hypotheses, and the fused fragment contains both `id` and the
requested `votes` field. -/
theorem fused_query_selection_superset_witness :
    ([FieldNode.mk "wrappedDelegates"
        [Selection.field "delegate" [Selection.field "votes" []]]].find?
      (fun node => node.name == "wrappedDelegates") =
      some (FieldNode.mk "wrappedDelegates"
        [Selection.field "delegate" [Selection.field "votes" []]])) ∧
    ((((FieldNode.mk "wrappedDelegates"
        [Selection.field "delegate" [Selection.field "votes" []]]).selections.flatMap
      (fun field => if field.isDelegateField then [field] else [])).head?) =
      some (Selection.field "delegate" [Selection.field "votes" []])) ∧
    (Selection.field "id" [] ∈
      (buildFusedDelegateQuery
        (getSelectionSetFromDelegateField
          [FieldNode.mk "wrappedDelegates"
            [Selection.field "delegate" [Selection.field "votes" []]]]
          "wrappedDelegates")).fragmentSelections ∧
    ∀ s ∈ [Selection.field "votes" []], ∀ n sub,
      s = Selection.field n sub →
      (∃ sub2, Selection.field n sub2 ∈
        (buildFusedDelegateQuery
          (getSelectionSetFromDelegateField
            [FieldNode.mk "wrappedDelegates"
              [Selection.field "delegate" [Selection.field "votes" []]]]
            "wrappedDelegates")).fragmentSelections) ∧
      (n ≠ "id" → s ∈
        (buildFusedDelegateQuery
          (getSelectionSetFromDelegateField
            [FieldNode.mk "wrappedDelegates"
              [Selection.field "delegate" [Selection.field "votes" []]]]
            "wrappedDelegates")).fragmentSelections)) :=
  ⟨rfl, rfl, fused_query_selection_superset _ "wrappedDelegates" _ _ rfl rfl⟩

/-- Counterexample for claim C2: on a request whose delegate field carries a fragment
spread, the extractor drops the spread even though it is not a selection for
the identity field: the code returns only the `votes` field while the
spec-worded contract (selections minus any selection for `id`) keeps the
spread, so the code's output is strictly shorter. -/
theorem extractor_drops_fragment_spread :
    getSelectionSetFromDelegateField spreadRequestFieldNodes
      "wrappedDelegates" = [Selection.field "votes" []] ∧
    extractNestedSelectionSpec spreadRequestFieldNodes "wrappedDelegates"
      "delegate" =
      [Selection.fragmentSpread "voteInfo", Selection.field "votes" []] ∧
    (getSelectionSetFromDelegateField spreadRequestFieldNodes
      "wrappedDelegates").length <
      (extractNestedSelectionSpec spreadRequestFieldNodes "wrappedDelegates"
        "delegate").length :=
  ⟨rfl, rfl, by decide⟩

/-- Claim C2 as amended: the extractor finds the top-level field node matching the
current field name, then the first field named `delegate` inside it, and
returns that nested field's own field selections minus any selection for the
identity field `id`, dropping non-field selections as well; it returns the
empty list rather than failing when either field is absent. -/
theorem extractor_matches_amended_contract (fieldNodes : List FieldNode)
    (fieldName : String) :
    getSelectionSetFromDelegateField fieldNodes fieldName =
      extractNestedSelectionAmended fieldNodes fieldName "delegate" := by
  unfold getSelectionSetFromDelegateField extractNestedSelectionAmended
  cases hcur : fieldNodes.find? (fun node => node.name == fieldName) with
  | none => rfl
  | some currentFieldNode =>
    simp only [flatMap_singleton_eq_filter, List.filter_head?]
    have hp : (fun s => match s with
        | Selection.field name _ => name == "delegate"
        | _ => false) = (fun field : Selection => field.isDelegateField) := by
      funext s
      cases s <;> rfl
    rw [hp]
    cases hdel : currentFieldNode.selections.find?
        (fun field => field.isDelegateField) with
    | none => rfl
    | some delegateFieldNode =>
      have hq : (fun s => match s with
          | Selection.field name _ => name != "id"
          | _ => false) = (fun node : Selection => node.isNonIdField) := by
        funext s
        cases s <;> rfl
      simp only [hq]

/-- An executor standing for a remote execution that failed with two
errors. -/
def failingExecQuery : FusedQuery → ExecutionResult :=
  fun _ => ExecutionResult.mk [] ["upstream timeout", "bad gateway"]

/-- Claim C3: when the single fused remote execution returns a non-empty error
list, `wrappedDelegates` throws an aggregate error carrying all underlying
remote errors with their messages concatenated, and returns no result rows
at all. -/
theorem wrappedDelegates_aggregates_remote_errors (fieldNodes : List FieldNode)
    (fieldName : String) (execQuery : FusedQuery → ExecutionResult)
    (store : DelegateStatementStore)
    (herr : (execQuery (buildFusedDelegateQuery
      (getSelectionSetFromDelegateField fieldNodes fieldName))).errors ≠ []) :
    wrappedDelegates fieldNodes fieldName execQuery store =
      Except.error (AggregateError.mk
        (execQuery (buildFusedDelegateQuery
          (getSelectionSetFromDelegateField fieldNodes fieldName))).errors
        (String.intercalate ", \n"
          (execQuery (buildFusedDelegateQuery
            (getSelectionSetFromDelegateField fieldNodes fieldName))).errors)) := by
  unfold wrappedDelegates
  rw [if_neg (fun hEmp => herr (List.isEmpty_iff.mp hEmp))]

/-- Witness for claim C3: a request whose fused execution fails with two errors makes
`wrappedDelegates` return the aggregate of both, and no rows. -/
theorem wrappedDelegates_aggregates_remote_errors_witness :
    ((failingExecQuery (buildFusedDelegateQuery
      (getSelectionSetFromDelegateField [] "wrappedDelegates"))).errors ≠ []) ∧
    wrappedDelegates [] "wrappedDelegates" failingExecQuery [] =
      Except.error (AggregateError.mk ["upstream timeout", "bad gateway"]
        "upstream timeout, \nbad gateway") :=
  ⟨by decide,
    wrappedDelegates_aggregates_remote_errors [] "wrappedDelegates"
      failingExecQuery [] (by decide)⟩

lemma wrappedDelegates_ok (fieldNodes : List FieldNode) (fieldName : String)
    (execQuery : FusedQuery → ExecutionResult) (store : DelegateStatementStore)
    (herr : (execQuery (buildFusedDelegateQuery
      (getSelectionSetFromDelegateField fieldNodes fieldName))).errors = []) :
    wrappedDelegates fieldNodes fieldName execQuery store =
      Except.ok (((execQuery (buildFusedDelegateQuery
          (getSelectionSetFromDelegateField fieldNodes fieldName))).data.map
        (fun delegate => WrappedDelegate.mk delegate.id (some delegate))) ++
        ((storeKeys store).map
          (fun address => WrappedDelegate.mk address none)).filter
          (fun it => !(((execQuery (buildFusedDelegateQuery
            (getSelectionSetFromDelegateField fieldNodes fieldName))).data.map
              (fun delegate => delegate.id)).contains it.address))) := by
  unfold wrappedDelegates
  rw [if_pos (by rw [herr]; rfl)]
  simp only [List.map_map]
  rfl

/-- Claim C5: for every extra-selection list the fused query requests at most 1000
entities ordered by `delegatedVotesRaw` descending with a fragment holding
the identity field `id` plus every extra selection; and when the extraction
yields no extra selections the identity-only fused query is still executed
and its rows shape the result — the empty case is not skipped. -/
theorem fused_query_shape_and_empty_selection_executes (extra : List Selection)
    (fieldNodes : List FieldNode) (fieldName : String)
    (execQuery : FusedQuery → ExecutionResult) (store : DelegateStatementStore)
    (hsel : getSelectionSetFromDelegateField fieldNodes fieldName = [])
    (hok : (execQuery (buildFusedDelegateQuery [])).errors = []) :
    (buildFusedDelegateQuery extra).first = 1000 ∧
    (buildFusedDelegateQuery extra).orderBy = "delegatedVotesRaw" ∧
    (buildFusedDelegateQuery extra).orderDirection = "desc" ∧
    Selection.field "id" [] ∈
      (buildFusedDelegateQuery extra).fragmentSelections ∧
    (∀ s ∈ extra, s ∈ (buildFusedDelegateQuery extra).fragmentSelections) ∧
    wrappedDelegates fieldNodes fieldName execQuery store =
      Except.ok (((execQuery (buildFusedDelegateQuery [])).data.map
        (fun delegate => WrappedDelegate.mk delegate.id (some delegate))) ++
        ((storeKeys store).map
          (fun address => WrappedDelegate.mk address none)).filter
          (fun it => !(((execQuery (buildFusedDelegateQuery [])).data.map
            (fun delegate => delegate.id)).contains it.address))) := by
  refine ⟨rfl, rfl, rfl, by simp [buildFusedDelegateQuery], ?_, ?_⟩
  · intro s hs
    simp [buildFusedDelegateQuery, hs]
  · have h := wrappedDelegates_ok fieldNodes fieldName execQuery store
      (by rw [hsel]; exact hok)
    rw [hsel] at h
    exact h

/-- An executor standing for a remote execution that succeeded with one
delegate row. -/
def successExecQuery : FusedQuery → ExecutionResult :=
  fun _ => ExecutionResult.mk [DelegateRow.mk "0xaaa" []] []

/-- Witness for claim C5: a request selecting nothing beyond the delegate list itself
(empty extraction) still executes the identity-only fused query, whose one
returned row shows up in the result. -/
theorem fused_query_shape_witness :
    (getSelectionSetFromDelegateField [] "wrappedDelegates" = []) ∧
    ((successExecQuery (buildFusedDelegateQuery [])).errors = []) ∧
    ((buildFusedDelegateQuery [Selection.field "votes" []]).first = 1000 ∧
    (buildFusedDelegateQuery
      [Selection.field "votes" []]).orderBy = "delegatedVotesRaw" ∧
    (buildFusedDelegateQuery
      [Selection.field "votes" []]).orderDirection = "desc" ∧
    Selection.field "id" [] ∈
      (buildFusedDelegateQuery
        [Selection.field "votes" []]).fragmentSelections ∧
    (∀ s ∈ [Selection.field "votes" []], s ∈
      (buildFusedDelegateQuery
        [Selection.field "votes" []]).fragmentSelections) ∧
    wrappedDelegates [] "wrappedDelegates" successExecQuery [] =
      Except.ok (((successExecQuery (buildFusedDelegateQuery [])).data.map
        (fun delegate => WrappedDelegate.mk delegate.id (some delegate))) ++
        ((storeKeys ([] : DelegateStatementStore)).map
          (fun address => WrappedDelegate.mk address none)).filter
          (fun it => !(((successExecQuery (buildFusedDelegateQuery [])).data.map
            (fun delegate => delegate.id)).contains it.address)))) :=
  ⟨rfl, rfl,
    fused_query_shape_and_empty_selection_executes [Selection.field "votes" []]
      [] "wrappedDelegates" successExecQuery [] rfl rfl⟩

lemma remote_part_filter (A : String) (rows : List DelegateRow)
    (hnd : (rows.map (fun d => d.id)).Nodup) :
    ((rows.map (fun d => WrappedDelegate.mk d.id (some d))).filter
      (fun w => w.address == A)) =
      (match rows.find? (fun r => r.id == A) with
        | some r => [WrappedDelegate.mk A (some r)]
        | none => []) := by
  induction rows with
  | nil => rfl
  | cons d t ih =>
    rw [List.map_cons, List.nodup_cons] at hnd
    by_cases h : (d.id == A) = true
    · have hdA : d.id = A := by simpa using h
      rw [List.map_cons, List.filter_cons_of_pos (by simpa using h)]
      have hfind : (d :: t).find? (fun r => r.id == A) = some d :=
        List.find?_cons_of_pos _ h
      rw [hfind]
      have hnil : ((t.map (fun d => WrappedDelegate.mk d.id (some d))).filter
          (fun w => w.address == A)) = [] := by
        apply List.filter_eq_nil_iff.mpr
        intro w hw
        obtain ⟨x, hx, rfl⟩ := List.mem_map.mp hw
        intro hbeq
        have hxA : x.id = A := by simpa using hbeq
        exact hnd.1 (hxA.trans hdA.symm ▸ List.mem_map_of_mem _ hx)
      rw [hnil, hdA]
    · have hfalse : (d.id == A) = false := by
        exact Bool.eq_false_iff.mpr h
      rw [List.map_cons, List.filter_cons_of_neg (by simpa using hfalse),
        List.find?_cons_of_neg _ (by simp [hfalse])]
      exact ih hnd.2

lemma statement_only_part_filter (A : String) (remoteIds : List String)
    (keys : List String) (hnd : keys.Nodup) (hA : A ∈ keys) :
    (((keys.map (fun address => WrappedDelegate.mk address none)).filter
        (fun it => !(remoteIds.contains it.address))).filter
      (fun w => w.address == A)) =
      (if remoteIds.contains A then [] else [WrappedDelegate.mk A none]) := by
  induction keys with
  | nil => cases hA
  | cons k t ih =>
    rw [List.nodup_cons] at hnd
    by_cases hk : k = A
    · subst hk
      have hnilT : ∀ (l : List WrappedDelegate), (∀ w ∈ l, w.address ≠ k) →
          l.filter (fun w => w.address == k) = [] := by
        intro l hl
        apply List.filter_eq_nil_iff.mpr
        intro w hw hbeq
        exact hl w hw (by simpa using hbeq)
      have htne : ∀ w ∈ ((t.map (fun address => WrappedDelegate.mk address
          none)).filter (fun it => !(remoteIds.contains it.address))),
          w.address ≠ k := by
        intro w hw
        obtain ⟨x, hx, rfl⟩ := List.mem_map.mp (List.mem_of_mem_filter hw)
        intro hxk
        exact hnd.1 (hxk ▸ hx)
      by_cases hc : remoteIds.contains k = true
      · rw [List.map_cons, List.filter_cons_of_neg (by simpa using hc),
          hnilT _ htne, if_pos hc]
      · have hcf : remoteIds.contains k = false := Bool.eq_false_iff.mpr hc
        rw [List.map_cons, List.filter_cons_of_pos (by simpa using hcf),
          List.filter_cons_of_pos (by simp), hnilT _ htne, if_neg hc]
    · have hAt : A ∈ t := by
        rcases List.mem_cons.mp hA with h | h
        · exact absurd h.symm hk
        · exact h
      by_cases hc : (!(remoteIds.contains k)) = true
      · rw [List.map_cons, List.filter_cons_of_pos (by simpa using hc),
          List.filter_cons_of_neg (by simp [hk])]
        exact ih hnd.2 hAt
      · rw [List.map_cons, List.filter_cons_of_neg (by simpa using hc)]
        exact ih hnd.2 hAt

/-- Claim C4: when the fused execution succeeds, a stored address `A` appears in
the `wrappedDelegates` result exactly once — with `underlyingDelegate`
populated from the on-chain result row when the remote rows contain `A`, and
with `underlyingDelegate` absent when `A` is statement-only.  Assumes remote
row ids and store keys are each duplicate-free. -/
theorem wrappedDelegates_unique_per_address (fieldNodes : List FieldNode)
    (fieldName : String) (execQuery : FusedQuery → ExecutionResult)
    (store : DelegateStatementStore) (A : String)
    (herr : (execQuery (buildFusedDelegateQuery
      (getSelectionSetFromDelegateField fieldNodes fieldName))).errors = [])
    (hrows : ((execQuery (buildFusedDelegateQuery
      (getSelectionSetFromDelegateField fieldNodes fieldName))).data.map
      (fun delegate => delegate.id)).Nodup)
    (hkeys : (storeKeys store).Nodup) (hA : A ∈ storeKeys store) :
    ∃ l, wrappedDelegates fieldNodes fieldName execQuery store =
      Except.ok l ∧
      l.filter (fun w => w.address == A) =
        (match (execQuery (buildFusedDelegateQuery
          (getSelectionSetFromDelegateField fieldNodes fieldName))).data.find?
            (fun r => r.id == A) with
          | some r => [WrappedDelegate.mk A (some r)]
          | none => [WrappedDelegate.mk A none]) := by
  refine ⟨_, wrappedDelegates_ok fieldNodes fieldName execQuery store herr, ?_⟩
  rw [List.filter_append,
    remote_part_filter A _ hrows,
    statement_only_part_filter A _ _ hkeys hA]
  cases hfind : (execQuery (buildFusedDelegateQuery
      (getSelectionSetFromDelegateField fieldNodes fieldName))).data.find?
      (fun r => r.id == A) with
  | some r =>
    have hmemId : A ∈ ((execQuery (buildFusedDelegateQuery
        (getSelectionSetFromDelegateField fieldNodes fieldName))).data.map
        (fun delegate => delegate.id)) := by
      have hr : r.id = A := by simpa using List.find?_some hfind
      exact hr ▸ List.mem_map_of_mem _ (List.mem_of_find?_eq_some hfind)
    rw [if_pos (List.elem_eq_true_of_mem hmemId)]
    simp
  | none =>
    have hnmem : A ∉ ((execQuery (buildFusedDelegateQuery
        (getSelectionSetFromDelegateField fieldNodes fieldName))).data.map
        (fun delegate => delegate.id)) := by
      intro hmem
      obtain ⟨x, hx, hxA⟩ := List.mem_map.mp hmem
      exact (List.find?_eq_none.mp hfind x hx) (by simpa using hxA)
    rw [if_neg (by simpa using hnmem)]
    simp

lemma storeGet_storeSet_self (store : DelegateStatementStore) (key : String)
    (record : StatementRecord) :
    storeGet (storeSet store key record) key = some record := by
  induction store with
  | nil => simp [storeSet, storeGet]
  | cons e rest ih =>
    obtain ⟨k, r⟩ := e
    by_cases h : (k == key) = true
    · simp [storeSet, storeGet, h]
    · have hf : (k == key) = false := Bool.eq_false_iff.mpr h
      have hred : storeSet ((k, r) :: rest) key record =
          (k, r) :: storeSet rest key record := by
        simp [storeSet, hf]
      rw [hred]
      have hstep : List.find? (fun entry => entry.1 == key)
          ((k, r) :: storeSet rest key record) =
          List.find? (fun entry => entry.1 == key)
            (storeSet rest key record) :=
        List.find?_cons_of_neg _ (by simpa using h)
      show (List.find? (fun entry => entry.1 == key)
        ((k, r) :: storeSet rest key record)).map (fun entry => entry.2) =
        some record
      rw [hstep]
      exact ih

lemma key_mem_storeKeys_storeSet (store : DelegateStatementStore)
    (key : String) (record : StatementRecord) :
    key ∈ storeKeys (storeSet store key record) := by
  induction store with
  | nil => simp [storeSet, storeKeys]
  | cons e rest ih =>
    obtain ⟨k, r⟩ := e
    by_cases h : (k == key) = true
    · simp [storeSet, storeKeys, h]
    · have hf : (k == key) = false := Bool.eq_false_iff.mpr h
      have hred : storeSet ((k, r) :: rest) key record =
          (k, r) :: storeSet rest key record := by
        simp [storeSet, hf]
      rw [hred]
      show key ∈ k :: storeKeys (storeSet rest key record)
      exact List.mem_cons_of_mem _ ih

lemma mem_storeKeys_storeSet_imp (store : DelegateStatementStore)
    (key : String) (record : StatementRecord) (a : String)
    (ha : a ∈ storeKeys (storeSet store key record)) :
    a = key ∨ a ∈ storeKeys store := by
  induction store with
  | nil =>
    have ha2 : a ∈ [key] := ha
    exact Or.inl (by simpa using ha2)
  | cons e rest ih =>
    obtain ⟨k, r⟩ := e
    by_cases h : (k == key) = true
    · rw [show storeSet ((k, r) :: rest) key record = (key, record) :: rest
        from by simp [storeSet, h]] at ha
      have ha2 : a ∈ key :: storeKeys rest := ha
      rcases List.mem_cons.mp ha2 with h1 | h1
      · exact Or.inl h1
      · exact Or.inr (List.mem_cons_of_mem _ h1)
    · have hf : (k == key) = false := Bool.eq_false_iff.mpr h
      rw [show storeSet ((k, r) :: rest) key record =
        (k, r) :: storeSet rest key record from by simp [storeSet, hf]] at ha
      have ha2 : a ∈ k :: storeKeys (storeSet rest key record) := ha
      rcases List.mem_cons.mp ha2 with h1 | h1
      · subst h1
        exact Or.inr (List.mem_cons_self _ _)
      · rcases ih h1 with h2 | h2
        · exact Or.inl h2
        · exact Or.inr (List.mem_cons_of_mem _ h2)

lemma storeKeys_storeSet_nodup (store : DelegateStatementStore) (key : String)
    (record : StatementRecord) (hnd : (storeKeys store).Nodup) :
    (storeKeys (storeSet store key record)).Nodup := by
  induction store with
  | nil => simp [storeSet, storeKeys]
  | cons e rest ih =>
    obtain ⟨k, r⟩ := e
    rw [show storeKeys ((k, r) :: rest) = k :: storeKeys rest from rfl,
      List.nodup_cons] at hnd
    by_cases h : (k == key) = true
    · have hk : k = key := by simpa using h
      simp only [storeSet, h, if_true]
      rw [show storeKeys ((key, record) :: rest) = key :: storeKeys rest
        from rfl, List.nodup_cons]
      exact ⟨hk ▸ hnd.1, hnd.2⟩
    · have hne : k ≠ key := by simpa using h
      have hf : (k == key) = false := Bool.eq_false_iff.mpr h
      simp only [storeSet, hf, Bool.false_eq_true, if_false]
      rw [show storeKeys ((k, r) :: storeSet rest key record) =
        k :: storeKeys (storeSet rest key record) from rfl, List.nodup_cons]
      refine ⟨fun hmem => ?_, ih hnd.2⟩
      rcases mem_storeKeys_storeSet_imp rest key record k hmem with h1 | h1
      · exact hne h1
      · exact hnd.1 h1

/-- Claim C6: when validation succeeds, `createNewDelegateStatement` commits the
validated record to the statement store under the validated record's address
and returns an object carrying only that address (the
`CreateNewDelegateStatementResult` type has no other component); reading the
store back at the returned address yields exactly the committed record. -/
theorem createNewDelegateStatement_commits_and_returns_address
    (payloadJSON : Option SubmittedPayload) (signature : Signature)
    (store : DelegateStatementStore) (validated : StatementRecord)
    (hval : validateForm payloadJSON signature = Except.ok validated) :
    createNewDelegateStatement payloadJSON signature store =
      Except.ok (storeSet store validated.address validated,
        CreateNewDelegateStatementResult.mk validated.address) ∧
    storeGet (storeSet store validated.address validated)
      validated.address = some validated := by
  constructor
  · unfold createNewDelegateStatement
    rw [hval]
  · exact storeGet_storeSet_self store validated.address validated

/-- Claim C7: when validation fails, the mutation is rejected with that
`ValidationError`; the error branch of the embedding produces no updated
store, so the store the caller holds is exactly the one from before the
mutation — no entry added, removed, or modified. -/
theorem createNewDelegateStatement_rejected_on_invalid
    (payloadJSON : Option SubmittedPayload) (signature : Signature)
    (store : DelegateStatementStore) (e : ValidationError)
    (hval : validateForm payloadJSON signature = Except.error e) :
    createNewDelegateStatement payloadJSON signature store =
      Except.error e := by
  unfold createNewDelegateStatement
  rw [hval]

/-- Claim C8: after two successive valid submissions whose validated records share
an address, the statement store holds exactly one record for that address,
namely the second submission's validated record (last write wins). -/
theorem statement_store_last_write_wins (p1 p2 : Option SubmittedPayload)
    (s1 s2 : Signature) (store : DelegateStatementStore)
    (v1 v2 : StatementRecord)
    (h1 : validateForm p1 s1 = Except.ok v1)
    (h2 : validateForm p2 s2 = Except.ok v2)
    (haddr : v2.address = v1.address)
    (hnd : (storeKeys store).Nodup) :
    ∃ store1 store2,
      createNewDelegateStatement p1 s1 store =
        Except.ok (store1, CreateNewDelegateStatementResult.mk v1.address) ∧
      createNewDelegateStatement p2 s2 store1 =
        Except.ok (store2, CreateNewDelegateStatementResult.mk v2.address) ∧
      (storeKeys store2).count v2.address = 1 ∧
      storeGet store2 v2.address = some v2 := by
  refine ⟨storeSet store v1.address v1,
    storeSet (storeSet store v1.address v1) v2.address v2, ?_, ?_, ?_, ?_⟩
  · unfold createNewDelegateStatement
    rw [h1]
  · unfold createNewDelegateStatement
    rw [h2]
  · exact List.count_eq_one_of_mem
      (storeKeys_storeSet_nodup _ _ _ (storeKeys_storeSet_nodup _ _ _ hnd))
      (key_mem_storeKeys_storeSet _ _ _)
  · exact storeGet_storeSet_self _ _ _

/-- Claim C9: the `WrappedDelegate.delegate` field resolver returns the underlying
on-chain delegate directly when present, and otherwise falls back to
delegating a `delegate(id: address)` query-field resolution to the remote
schema instead of failing or returning nothing. -/
theorem delegate_field_resolution (w : WrappedDelegate) :
    (∀ d, w.underlyingDelegate = some d →
      WrappedDelegate.delegate w = DelegateFieldResolution.direct d) ∧
    (w.underlyingDelegate = none →
      WrappedDelegate.delegate w =
        DelegateFieldResolution.delegatedToSchema "query" "delegate"
          w.address) := by
  constructor
  · intro d hd
    unfold WrappedDelegate.delegate
    rw [hd]
  · intro hn
    unfold WrappedDelegate.delegate
    rw [hn]

/-- Witness for claim C9: an entry with an underlying delegate resolves directly; a
statement-only entry resolves through an on-demand delegated fetch by its
address. -/
theorem delegate_field_resolution_witness :
    ((WrappedDelegate.mk "0xaaa"
        (some (DelegateRow.mk "0xaaa" []))).underlyingDelegate =
      some (DelegateRow.mk "0xaaa" []) ∧
      WrappedDelegate.delegate
        (WrappedDelegate.mk "0xaaa" (some (DelegateRow.mk "0xaaa" []))) =
        DelegateFieldResolution.direct (DelegateRow.mk "0xaaa" [])) ∧
    ((WrappedDelegate.mk "0xccc" none).underlyingDelegate = none ∧
      WrappedDelegate.delegate (WrappedDelegate.mk "0xccc" none) =
        DelegateFieldResolution.delegatedToSchema "query" "delegate"
          "0xccc") :=
  ⟨⟨rfl, (delegate_field_resolution _).1 _ rfl⟩,
    ⟨rfl, (delegate_field_resolution _).2 rfl⟩⟩

lemma not_contains_ids_eq_all (rows : List DelegateRow) (k : String) :
    (!((rows.map (fun delegate => delegate.id)).contains k)) =
      rows.all (fun r => !(r.id == k)) := by
  induction rows with
  | nil => rfl
  | cons r rs ihr =>
    show (!(k == r.id ||
        (rs.map (fun delegate => delegate.id)).contains k)) =
      ((!(r.id == k)) && rs.all (fun x => !(x.id == k)))
    rw [Bool.not_or, ihr, Bool.beq_comm]

lemma statement_only_filter_as_map (rows : List DelegateRow)
    (keys : List String) :
    ((keys.map (fun address => WrappedDelegate.mk address none)).filter
      (fun it => !((rows.map (fun delegate => delegate.id)).contains
        it.address))) =
    ((keys.filter (fun address =>
        rows.all (fun r => !(r.id == address)))).map
      (fun address => WrappedDelegate.mk address none)) := by
  induction keys with
  | nil => rfl
  | cons k t ih =>
    rw [List.map_cons]
    by_cases h : (rows.all (fun r => !(r.id == k))) = true
    · have hstep1 : ((WrappedDelegate.mk k none) ::
          t.map (fun address => WrappedDelegate.mk address none)).filter
          (fun it => !((rows.map (fun delegate => delegate.id)).contains
            it.address)) =
          (WrappedDelegate.mk k none) ::
          (t.map (fun address => WrappedDelegate.mk address none)).filter
          (fun it => !((rows.map (fun delegate => delegate.id)).contains
            it.address)) :=
        List.filter_cons_of_pos
          (by exact (not_contains_ids_eq_all rows k).trans h)
      have hstep2 : (k :: t).filter (fun address =>
          rows.all (fun r => !(r.id == address))) =
          k :: t.filter (fun address =>
            rows.all (fun r => !(r.id == address))) :=
        List.filter_cons_of_pos (by exact h)
      rw [hstep1, hstep2, List.map_cons, ih]
    · have hstep1 : ((WrappedDelegate.mk k none) ::
          t.map (fun address => WrappedDelegate.mk address none)).filter
          (fun it => !((rows.map (fun delegate => delegate.id)).contains
            it.address)) =
          (t.map (fun address => WrappedDelegate.mk address none)).filter
          (fun it => !((rows.map (fun delegate => delegate.id)).contains
            it.address)) :=
        List.filter_cons_of_neg
          (by exact fun hc => h ((not_contains_ids_eq_all rows k).symm.trans hc))
      have hstep2 : (k :: t).filter (fun address =>
          rows.all (fun r => !(r.id == address))) =
          t.filter (fun address =>
            rows.all (fun r => !(r.id == address))) :=
        List.filter_cons_of_neg (by exact h)
      rw [hstep1, hstep2, ih]

/-- Claim C10: on a successful fused execution the result list of
`wrappedDelegates` is exactly the wrapped on-chain rows, in the order the
fused remote query returned them, followed by the statement-only store
addresses in the store's insertion order; statement-only entries are never
interleaved with or placed before on-chain entries. -/
theorem wrappedDelegates_ordering (fieldNodes : List FieldNode)
    (fieldName : String) (execQuery : FusedQuery → ExecutionResult)
    (store : DelegateStatementStore)
    (herr : (execQuery (buildFusedDelegateQuery
      (getSelectionSetFromDelegateField fieldNodes fieldName))).errors = []) :
    wrappedDelegates fieldNodes fieldName execQuery store =
      Except.ok (((execQuery (buildFusedDelegateQuery
          (getSelectionSetFromDelegateField fieldNodes fieldName))).data.map
        (fun delegate => WrappedDelegate.mk delegate.id (some delegate))) ++
        (((storeKeys store).filter (fun address =>
          (execQuery (buildFusedDelegateQuery
            (getSelectionSetFromDelegateField fieldNodes
              fieldName))).data.all (fun r => !(r.id == address)))).map
          (fun address => WrappedDelegate.mk address none))) := by
  rw [wrappedDelegates_ok fieldNodes fieldName execQuery store herr,
    statement_only_filter_as_map]

/-- Statement content used by the concrete examples. -/
def sampleValues : StatementValues :=
  { delegateStatement := "Hello"
    openToSponsoringProposals := some "yes"
    twitter := "nouncil"
    discord := ""
    mostValuableProposals := ["121"]
    leastValuableProposals := ["127"]
    topIssues := [("proliferation", "Focus on proliferation.")]
    forClient := "nouns-agora" }

/-- A validated record stored for a given address in the examples. -/
def sampleRecordFor (address : String) : StatementRecord :=
  { address := address
    values := sampleValues
    rawSignature := Signature.mk address }

/-- A statement store holding records for two addresses, one of which also
exists on-chain in the example executor's rows and one of which is
statement-only. -/
def sampleStore : DelegateStatementStore :=
  [("0xaaa", sampleRecordFor "0xaaa"), ("0xccc", sampleRecordFor "0xccc")]

/-- An executor standing for a remote execution that succeeded with two
delegate rows in descending-votes order. -/
def twoRowExecQuery : FusedQuery → ExecutionResult :=
  fun _ => ExecutionResult.mk
    [DelegateRow.mk "0xaaa" [("delegatedVotes", "12")],
      DelegateRow.mk "0xbbb" [("delegatedVotes", "5")]] []

/-- Witness for claim C4: with two on-chain rows and a store naming one of those
addresses, that address shows up exactly once, populated from the on-chain
row. -/
theorem wrappedDelegates_unique_per_address_witness :
    ((twoRowExecQuery (buildFusedDelegateQuery
      (getSelectionSetFromDelegateField [] "wrappedDelegates"))).errors =
      []) ∧
    (((twoRowExecQuery (buildFusedDelegateQuery
      (getSelectionSetFromDelegateField [] "wrappedDelegates"))).data.map
      (fun delegate => delegate.id)).Nodup) ∧
    ((storeKeys sampleStore).Nodup) ∧
    ("0xaaa" ∈ storeKeys sampleStore) ∧
    (∃ l, wrappedDelegates [] "wrappedDelegates" twoRowExecQuery
        sampleStore = Except.ok l ∧
      l.filter (fun w => w.address == "0xaaa") =
        (match (twoRowExecQuery (buildFusedDelegateQuery
          (getSelectionSetFromDelegateField []
            "wrappedDelegates"))).data.find?
            (fun r => r.id == "0xaaa") with
          | some r => [WrappedDelegate.mk "0xaaa" (some r)]
          | none => [WrappedDelegate.mk "0xaaa" none])) :=
  ⟨rfl, by decide, by decide, by decide,
    wrappedDelegates_unique_per_address [] "wrappedDelegates"
      twoRowExecQuery sampleStore "0xaaa" rfl (by decide) (by decide)
      (by decide)⟩

/-- The submission used by the mutation examples: a mixed-case claimed
address and a signature recovering to the same address in lowercase. -/
def samplePayload : SubmittedPayload :=
  SubmittedPayload.mk "0xABC" sampleValues

/-- The signature of the mutation examples. -/
def sampleSignature : Signature :=
  Signature.mk "0xabc"

/-- The record the validator yields for `samplePayload`. -/
def sampleValidated : StatementRecord :=
  StatementRecord.mk "0xabc" sampleValues sampleSignature

/-- Witness for claim C6: the valid sample submission commits the validated record
under the normalized address and returns exactly that address. -/
theorem createNewDelegateStatement_commits_witness :
    (validateForm (some samplePayload) sampleSignature =
      Except.ok sampleValidated) ∧
    (createNewDelegateStatement (some samplePayload) sampleSignature [] =
      Except.ok (storeSet [] sampleValidated.address sampleValidated,
        CreateNewDelegateStatementResult.mk sampleValidated.address) ∧
    storeGet (storeSet [] sampleValidated.address sampleValidated)
      sampleValidated.address = some sampleValidated) :=
  ⟨rfl, createNewDelegateStatement_commits_and_returns_address
    (some samplePayload) sampleSignature [] sampleValidated rfl⟩

/-- Witness for claim C7: a submission whose signature recovers to a different signer
is rejected with a `ValidationError` and yields no updated store. -/
theorem createNewDelegateStatement_rejected_witness :
    (validateForm (some samplePayload) (Signature.mk "0xdead") =
      Except.error (ValidationError.mk
        "recovered signer does not match the address claimed by the payload")) ∧
    (createNewDelegateStatement (some samplePayload) (Signature.mk "0xdead")
      sampleStore = Except.error (ValidationError.mk
        "recovered signer does not match the address claimed by the payload")) :=
  ⟨rfl, createNewDelegateStatement_rejected_on_invalid (some samplePayload)
    (Signature.mk "0xdead") sampleStore (ValidationError.mk
      "recovered signer does not match the address claimed by the payload")
    rfl⟩

/-- Updated statement content for the second submission of the last-write-wins
example. -/
def sampleValues2 : StatementValues :=
  { sampleValues with delegateStatement := "Updated statement" }

/-- The second submission for the same address. -/
def samplePayload2 : SubmittedPayload :=
  SubmittedPayload.mk "0xabc" sampleValues2

/-- The record the validator yields for `samplePayload2`. -/
def sampleValidated2 : StatementRecord :=
  StatementRecord.mk "0xabc" sampleValues2 sampleSignature

/-- Witness for claim C8: submitting twice for the same address leaves one record for
that address holding the second submission's values. -/
theorem statement_store_last_write_wins_witness :
    (validateForm (some samplePayload) sampleSignature =
      Except.ok sampleValidated) ∧
    (validateForm (some samplePayload2) sampleSignature =
      Except.ok sampleValidated2) ∧
    (sampleValidated2.address = sampleValidated.address) ∧
    ((storeKeys ([] : DelegateStatementStore)).Nodup) ∧
    (∃ store1 store2,
      createNewDelegateStatement (some samplePayload) sampleSignature [] =
        Except.ok (store1,
          CreateNewDelegateStatementResult.mk sampleValidated.address) ∧
      createNewDelegateStatement (some samplePayload2) sampleSignature
        store1 = Except.ok (store2,
          CreateNewDelegateStatementResult.mk sampleValidated2.address) ∧
      (storeKeys store2).count sampleValidated2.address = 1 ∧
      storeGet store2 sampleValidated2.address = some sampleValidated2) :=
  ⟨rfl, rfl, rfl, List.nodup_nil,
    statement_store_last_write_wins (some samplePayload)
      (some samplePayload2) sampleSignature sampleSignature []
      sampleValidated sampleValidated2 rfl rfl rfl List.nodup_nil⟩

/-- Witness for claim C10: two on-chain rows come first in returned order, then the
statement-only address, never interleaved. -/
theorem wrappedDelegates_ordering_witness :
    ((twoRowExecQuery (buildFusedDelegateQuery
      (getSelectionSetFromDelegateField [] "wrappedDelegates"))).errors =
      []) ∧
    wrappedDelegates [] "wrappedDelegates" twoRowExecQuery sampleStore =
      Except.ok (((twoRowExecQuery (buildFusedDelegateQuery
          (getSelectionSetFromDelegateField []
            "wrappedDelegates"))).data.map
        (fun delegate => WrappedDelegate.mk delegate.id (some delegate))) ++
        (((storeKeys sampleStore).filter (fun address =>
          (twoRowExecQuery (buildFusedDelegateQuery
            (getSelectionSetFromDelegateField []
              "wrappedDelegates"))).data.all
            (fun r => !(r.id == address)))).map
          (fun address => WrappedDelegate.mk address none))) :=
  ⟨rfl, wrappedDelegates_ordering [] "wrappedDelegates" twoRowExecQuery
    sampleStore rfl⟩

end Agora
